import Mathlib

/-!
# Verification of the go-app-gen template-substitution and generation engine

Shallow embedding of the generator package of `nhalm/go-app-gen`.
Go strings are modelled as `List Char` (rune sequences); the Go `strings`
library functions used by the source are embedded below with matching
semantics on that model.  The repository contains two revisions of
`generator.go`: the older one (namespace `Generator0`, with the local
`pluralize` helper and `strings.Title`) and the current one (namespace
`Generator`, with `titleCase`, the `inflection` library pluralizer and the
`PostProcess` pipeline).
-/

/-- Model of Go `strings.HasSuffix`: `suf` is a suffix of `s`. -/
def hasSuf (s suf : List Char) : Bool := suf.isSuffixOf s

/-- Model of Go `strings.TrimPrefix`: drop `pre` from the front of `s`
when it is a prefix, otherwise return `s` unchanged. -/
def trimPre (s pre : List Char) : List Char :=
  if pre.isPrefixOf s then s.drop pre.length else s

/-- Model of Go `strings.TrimSuffix`: drop `suf` from the end of `s`
when it is a suffix, otherwise return `s` unchanged. -/
def trimSuf (s suf : List Char) : List Char :=
  if suf.isSuffixOf s then s.take (s.length - suf.length) else s

/-- Model of Go `strings.ToLower` (simple case mapping; the embedding's
alphabet is ASCII, on which Go and `Char.toLower` agree). -/
def goToLower (s : List Char) : List Char := s.map Char.toLower

/-- Model of Go `strings.ToUpper` (simple case mapping on the ASCII
alphabet of the embedding). -/
def goToUpper (s : List Char) : List Char := s.map Char.toUpper

/-- `containsSeq s sub`: model of Go `strings.Contains` — `sub` occurs as a
contiguous substring of `s`. -/
def containsSeq (s sub : List Char) : Bool :=
  match s with
  | [] => sub.isEmpty
  | _ :: rest => sub.isPrefixOf s || containsSeq rest sub

/-- Worker for `replaceAll`: scan `s` left to right; at each position, if
`old` starts here, emit `new` and resume after the match (the replacement is
not rescanned), else keep the character.  The `Nat` argument is structural
fuel; every call supplies at least `s.length`, which is always enough since
each step consumes at least one character of `s`. -/
def replaceAllCore (old new : List Char) : Nat → List Char → List Char
  | _, [] => []
  | 0, s => s
  | fuel + 1, c :: rest =>
    if old.isPrefixOf (c :: rest) then
      new ++ replaceAllCore old new fuel (rest.drop (old.length - 1))
    else
      c :: replaceAllCore old new fuel rest

/-- Model of Go `strings.ReplaceAll s old new`: replace every
non-overlapping occurrence of `old` in `s` by `new`, leftmost first.  For
the empty pattern Go inserts `new` before every rune and at the end. -/
def replaceAll (s old new : List Char) : List Char :=
  if old.isEmpty then new ++ s.flatMap (fun c => c :: new)
  else replaceAllCore old new s.length s

/-- `pluralize` from the older `generator.go` (part_000 lines 150–158): the
English-heuristic pluralizer.  `y` → `ies`; `s`/`sh`/`ch` → append `es`;
otherwise append `s`. -/
def pluralize (word : List Char) : List Char :=
  if hasSuf word "y".toList then trimSuf word "y".toList ++ "ies".toList
  else if hasSuf word "s".toList || hasSuf word "sh".toList || hasSuf word "ch".toList then
    word ++ "es".toList
  else word ++ "s".toList

/-- `titleCase` from the current `generator.go` (part_001 lines 248–254):
upper-case the first character, lower-case the rest; empty input is
returned unchanged.  (Go slices the first byte; on the single-byte
characters of the embedding's alphabet this coincides with the first
rune.) -/
def titleCase (s : List Char) : List Char :=
  match s with
  | [] => []
  | c :: rest => Char.toUpper c :: goToLower rest

/-- Whether a character separates words for `goTitle`, modelling Go
`unicode.IsSeparator` as used by `strings.Title`: letters, digits and the
underscore do not separate; everything else does. -/
def isSep (c : Char) : Bool := !(c.isAlpha || c.isDigit || c = '_')

/-- Worker for `goTitle`: the Bool records whether the previous character
was a separator (so the current one starts a word). -/
def goTitleAux : Bool → List Char → List Char
  | _, [] => []
  | atStart, c :: rest =>
    (if atStart then Char.toUpper c else c) :: goTitleAux (isSep c) rest

/-- Model of Go `strings.Title` (used by the older `Generate` for
`DomainTitle`): upper-case the first letter of every word, leaving the
remaining letters unchanged. -/
def goTitle (s : List Char) : List Char := goTitleAux true s

/-- Uncountable words of the `github.com/jinzhu/inflection` library (the
current generator's pluralizer dependency); matched exactly,
case-insensitively. -/
def inflectionUncountables : List (List Char) :=
  ["equipment", "information", "rice", "money", "species", "series",
   "fish", "sheep", "jeans", "police"].map String.toList

/-- Irregular dictionary of the `inflection` library: singular suffix paired
with its plural replacement, consulted in order before the regular rules. -/
def inflectionIrregulars : List (List Char × List Char) :=
  [("person", "people"), ("man", "men"), ("child", "children"),
   ("sex", "sexes"), ("move", "moves"), ("mombie", "mombies")].map
    (fun pr => (pr.1.toList, pr.2.toList))

/-- Is `c` a lowercase ASCII letter (the character class `[a-z]`)? -/
def isLowerAZ (c : Char) : Bool := 'a' ≤ c && c ≤ 'z'

/-- Does the regular rule `([^aeiouy]|qu)y$` of the `inflection` library
match `s`: a trailing `y` preceded by a non-vowel character or by `qu`? -/
def ruleYApplies (s : List Char) : Bool :=
  hasSuf s "y".toList &&
    (let t := s.dropLast
     match t.getLast? with
     | none => false
     | some c => !(c ∈ ['a', 'e', 'i', 'o', 'u', 'y']) || hasSuf t "qu".toList)

/-- The regular suffix rules of the `inflection` library's `Plural`,
transcribed for the lowercase-ASCII words this development evaluates the
pluralizer on (for such inputs the library's upper-case and
case-insensitive compiled variants of each rule coincide with the verbatim
one).  Rules are tried in the library's compiled order (the declared rule
list reversed); the first matching rule rewrites the word. -/
def inflectionRegularPlural (s : List Char) : List Char :=
  if hasSuf s "quiz".toList then s ++ "zes".toList
  else if s = "oxen".toList then s
  else if s = "ox".toList then "oxen".toList
  else if hasSuf s "mice".toList || hasSuf s "lice".toList || hasSuf s "|ice".toList then s
  else if hasSuf s "mouse".toList || hasSuf s "louse".toList || hasSuf s "|ouse".toList then
    s.dropLast.dropLast.dropLast.dropLast ++ "ice".toList
  else if containsSeq s "matrix".toList || containsSeq s "vertix".toList
      || containsSeq s "indix".toList || hasSuf s "ex".toList then
    let t := replaceAll s "matrix".toList "matrices".toList
    let t := replaceAll t "vertix".toList "vertices".toList
    let t := replaceAll t "indix".toList "indices".toList
    if hasSuf t "ex".toList then t.dropLast.dropLast ++ "ices".toList else t
  else if hasSuf s "x".toList || hasSuf s "ch".toList || hasSuf s "ss".toList
      || hasSuf s "sh".toList then s ++ "es".toList
  else if ruleYApplies s then s.dropLast ++ "ies".toList
  else if hasSuf s "hive".toList then s ++ "s".toList
  else if (s.length ≥ 3 && hasSuf s "fe".toList
        && !(hasSuf s "ffe".toList)) then s.dropLast.dropLast ++ "ves".toList
  else if hasSuf s "lf".toList || hasSuf s "rf".toList then s.dropLast ++ "ves".toList
  else if hasSuf s "sis".toList then s.dropLast.dropLast.dropLast ++ "ses".toList
  else if hasSuf s "ta".toList || hasSuf s "ia".toList then s
  else if hasSuf s "tum".toList || hasSuf s "ium".toList then
    s.dropLast.dropLast ++ "a".toList
  else if hasSuf s "buffalo".toList || hasSuf s "tomato".toList then s ++ "es".toList
  else if hasSuf s "bus".toList then s ++ "es".toList
  else if hasSuf s "alias".toList || hasSuf s "status".toList then s ++ "es".toList
  else if hasSuf s "octopi".toList || hasSuf s "viri".toList then s
  else if hasSuf s "octopus".toList || hasSuf s "virus".toList then
    s.dropLast.dropLast ++ "i".toList
  else if s = "axis".toList || s = "testis".toList then
    s.dropLast.dropLast ++ "es".toList
  else if hasSuf s "s".toList then s
  else match s.getLast? with
    | some c => if isLowerAZ c then s ++ "s".toList else s
    | none => s

/-- Embedding of `Plural` from `github.com/jinzhu/inflection`, the library
the current `Generate` uses for `DomainPlural` (part_001 line 77).  The
compiled lookup tries, in order: the uncountable words (returned
unchanged), the irregular dictionary (trailing singular replaced by its
recorded plural), then the regular suffix rules. -/
def inflectionPlural (s : List Char) : List Char :=
  if s ∈ inflectionUncountables then s
  else
    match inflectionIrregulars.find? (fun pr => pr.1.isSuffixOf s) with
    | some pr => s.take (s.length - pr.1.length) ++ pr.2
    | none => inflectionRegularPlural s

example : pluralize "category".toList = "categories".toList := by decide
example : pluralize "bus".toList = "buses".toList := by decide
example : pluralize "order".toList = "orders".toList := by decide
example : pluralize "".toList = "s".toList := by decide
example : titleCase "PRODUCT".toList = "Product".toList := by decide
example : titleCase "product".toList = "Product".toList := by decide
example : inflectionPlural "person".toList = "people".toList := by decide
example : inflectionPlural "order".toList = "orders".toList := by decide
example : inflectionPlural "category".toList = "categories".toList := by decide
example : inflectionPlural "bus".toList = "buses".toList := by decide
example : goTitle "PRODUCT".toList = "PRODUCT".toList := by decide
example : replaceAll "ab-cd-ab".toList "ab".toList "X".toList = "X-cd-X".toList := by decide

/-- `ProjectConfig` from `generator.go`: the input value object supplied by
the CLI layer. -/
structure ProjectConfig where
  AppName : List Char
  ModuleName : List Char
  Domain : List Char
  Description : List Char
  Author : List Char
  Features : List (List Char)

/-- The Go loop inside the `HasFeature` closure of `Generate`: scan the
`Features` slice in order and return `true` on the first element equal to
`feature`. -/
def featuresContains : List (List Char) → List Char → Bool
  | [], _ => false
  | f :: fs, feature => if f = feature then true else featuresContains fs feature

namespace Generator0

/-- `TemplateData` of the older `generator.go` (part_000 lines 28–38). -/
structure TemplateData where
  AppName : List Char
  ModuleName : List Char
  Domain : List Char
  DomainTitle : List Char
  DomainPlural : List Char
  Description : List Char
  Author : List Char
  PackageImportPath : List Char
  HasFeature : List Char → Bool

/-- The `TemplateData` value built at the start of the older `Generate`
(part_000 lines 55–72): `DomainTitle` via `strings.Title`, `DomainPlural`
via the local heuristic `pluralize`. -/
def templateData (config : ProjectConfig) : TemplateData :=
  { AppName := config.AppName
    ModuleName := config.ModuleName
    Domain := config.Domain
    DomainTitle := goTitle config.Domain
    DomainPlural := pluralize config.Domain
    Description := config.Description
    Author := config.Author
    PackageImportPath := config.ModuleName
    HasFeature := fun feature => featuresContains config.Features feature }

end Generator0

namespace Generator

/-- `TemplateData` of the current `generator.go` (part_001 lines 32–45). -/
structure TemplateData where
  AppName : List Char
  ModuleName : List Char
  Domain : List Char
  DomainTitle : List Char
  DomainPlural : List Char
  DomainPluralLower : List Char
  DomainLower : List Char
  Description : List Char
  Author : List Char
  PackageImportPath : List Char
  GoVersion : List Char
  HasFeature : List Char → Bool

/-- The `TemplateData` value built at the start of the current `Generate`
(part_001 lines 72–92): `DomainTitle` via `titleCase`, `DomainPlural` and
`DomainPluralLower` via `inflection.Plural`, `DomainLower` via
`strings.ToLower`, and the `HasFeature` closure over `config.Features`. -/
def templateData (config : ProjectConfig) : TemplateData :=
  { AppName := config.AppName
    ModuleName := config.ModuleName
    Domain := config.Domain
    DomainTitle := titleCase config.Domain
    DomainPlural := inflectionPlural config.Domain
    DomainPluralLower := goToLower (inflectionPlural config.Domain)
    DomainLower := goToLower config.Domain
    Description := config.Description
    Author := config.Author
    PackageImportPath := config.ModuleName
    GoVersion := "1.23".toList
    HasFeature := fun feature => featuresContains config.Features feature }

/-- The app-name placeholder token substituted in output paths. -/
def tokAppName : List Char := "\x7b\x7b.AppName\x7d\x7d".toList

/-- The verbatim-domain placeholder token substituted in output paths. -/
def tokDomain : List Char := "\x7b\x7b.Domain\x7d\x7d".toList

/-- The lowercased-domain placeholder token substituted in output paths. -/
def tokDomainLower : List Char := "\x7b\x7b.domain\x7d\x7d".toList

/-- The pluralized-domain placeholder token substituted in output paths. -/
def tokDomainPlural : List Char := "\x7b\x7b.domain_plural\x7d\x7d".toList

/-- `getOutputPath` of the current `generator.go` (part_001 lines 162–178):
strip the `templates/` prefix, strip a trailing `.tmpl` extension if
present, then substitute the four placeholder tokens in order. -/
def getOutputPath (templatePath : List Char) (data : TemplateData) : List Char :=
  let path := trimPre templatePath "templates/".toList
  let path := if hasSuf path ".tmpl".toList then trimSuf path ".tmpl".toList else path
  let path := replaceAll path tokAppName data.AppName
  let path := replaceAll path tokDomain data.Domain
  let path := replaceAll path tokDomainLower data.DomainLower
  let path := replaceAll path tokDomainPlural data.DomainPlural
  path

end Generator

/-- Stage (1) of path resolution as the spec describes it: strip the fixed
template-root prefix. -/
def stripRoot (p : List Char) : List Char := trimPre p "templates/".toList

/-- Stage (2) of path resolution as the spec describes it: strip a
recognized template-file extension when present. -/
def stripTmplExt (p : List Char) : List Char :=
  if hasSuf p ".tmpl".toList then trimSuf p ".tmpl".toList else p

/-- Stage (3) of path resolution as the spec describes it: literal
substitution of the four placeholder tokens, in the fixed order app name,
verbatim domain, lowercased domain, pluralized domain. -/
def substTokens (data : Generator.TemplateData) (p : List Char) : List Char :=
  replaceAll
    (replaceAll
      (replaceAll
        (replaceAll p Generator.tokAppName data.AppName)
        Generator.tokDomain data.Domain)
      Generator.tokDomainLower data.DomainLower)
    Generator.tokDomainPlural data.DomainPlural

/-- A sample configuration used by the concrete evaluations below. -/
def shopOrderConfig : ProjectConfig :=
  { AppName := "shop".toList
    ModuleName := "example.com/shop".toList
    Domain := "order".toList
    Description := "".toList
    Author := "".toList
    Features := [] }

example :
    Generator.getOutputPath
      "templates/\x7b\x7b.AppName\x7d\x7d/\x7b\x7b.Domain\x7d\x7d.go.tmpl".toList
      (Generator.templateData shopOrderConfig) = "shop/order.go".toList := by decide

/-- An opaque error value returned by a filesystem, template or process
primitive (the `error` the Go code wraps). -/
inductive GoError where
  | msg : List Char → GoError
deriving DecidableEq

/-- The observable actions `processTemplates` performs on a template
resource: reading it, parsing it, rendering it, creating the output file's
directory, and writing the output file. -/
inductive Event where
  | readT : List Char → Event
  | parseT : List Char → Event
  | renderT : List Char → Event
  | mkdirT : List Char → Event
  | writeT : List Char → List Char → Event
deriving DecidableEq

/-- The wrapped errors `processTemplates` can return, mirroring the
`fmt.Errorf` wrappers of part_001 lines 115–158: each carries the template
path (or output path) named in the corresponding message, plus the
underlying error.  A directory-walk error is returned unwrapped. -/
inductive GenError where
  | walk : GoError → GenError
  | readFailed : List Char → GoError → GenError
  | parseFailed : List Char → GoError → GenError
  | execFailed : List Char → GoError → GenError
  | mkdirFailed : List Char → GoError → GenError
  | writeFailed : List Char → GoError → GenError
deriving DecidableEq

/-- One entry of the embedded template tree as surfaced by `fs.WalkDir`: a
virtual path, whether it is a directory, and the walk error (if any) passed
to the callback for this entry. -/
structure Resource where
  path : List Char
  isDir : Bool
  walkErr : Option GoError
deriving DecidableEq

/-- The post-processing commands of `PostProcess` (part_001 lines 194–246),
in pipeline order. -/
inductive Step where
  | modInit
  | sqlcGenerate
  | modTidy
  | goFmt
  | goimports
  | goBuild
deriving DecidableEq

/-- The wrapped errors of the fatal `PostProcess` steps, mirroring the
`fmt.Errorf` wrappers at part_001 lines 200–222. -/
inductive PostError where
  | modInitFailed : GoError → PostError
  | modTidyFailed : GoError → PostError
  | goFmtFailed : GoError → PostError
deriving DecidableEq

/-- The errors `Generate` can return (part_001 lines 94–110): project
directory creation failure, a `processTemplates` error returned unchanged,
or a `PostProcess` error wrapped as a post-processing failure. -/
inductive GenerateError where
  | projectDirFailed : GoError → GenerateError
  | templateError : GenError → GenerateError
  | postProcessFailed : PostError → GenerateError
deriving DecidableEq

/-- The external world the generator interacts with: the embedded template
store (in walk order), the filesystem primitives, the template engine, and
the external commands run by `PostProcess` (`none` = the command succeeded,
`some e` = it failed with `e`). -/
structure GenEnv where
  store : List Resource
  read : List Char → Except GoError (List Char)
  parseErr : List Char → List Char → Option GoError
  render : List Char → List Char → Generator.TemplateData → Except GoError (List Char)
  mkdirAll : List Char → Except GoError Unit
  write : List Char → List Char → Except GoError Unit
  exec : Step → Option GoError

/-- Model of `filepath.Join a b` for the non-empty, already-clean path
segments the generator joins. -/
def joinPath (a b : List Char) : List Char := a ++ '/' :: b

/-- Model of `filepath.Dir`: everything before the last slash, or `.` when
there is no slash. -/
def dirOf (p : List Char) : List Char :=
  match p.reverse.dropWhile (fun c => c ≠ '/') with
  | [] => ['.']
  | _ :: rest => rest.reverse

namespace Generator

/-- The `fs.WalkDir` callback body of `processTemplates` (part_001 lines
115–158) on a single entry: propagate a walk error, skip directories, then
read, parse, render, create the output directory and write the output file,
stopping at the first failing step and wrapping its error with the path the
source names in the corresponding message.  Returns the events performed
and the error, if any. -/
def processResource (env : GenEnv) (data : TemplateData) (projectDir : List Char)
    (r : Resource) : List Event × Option GenError :=
  match r.walkErr with
  | some e => ([], some (.walk e))
  | none =>
    if r.isDir then ([], none)
    else
      match env.read r.path with
      | .error e => ([.readT r.path], some (.readFailed r.path e))
      | .ok content =>
        match env.parseErr r.path content with
        | some e => ([.readT r.path, .parseT r.path], some (.parseFailed r.path e))
        | none =>
          match env.render r.path content data with
          | .error e =>
            ([.readT r.path, .parseT r.path, .renderT r.path],
             some (.execFailed r.path e))
          | .ok rendered =>
            let outputPath := joinPath projectDir (getOutputPath r.path data)
            match env.mkdirAll (dirOf outputPath) with
            | .error e =>
              ([.readT r.path, .parseT r.path, .renderT r.path, .mkdirT (dirOf outputPath)],
               some (.mkdirFailed outputPath e))
            | .ok _ =>
              match env.write outputPath rendered with
              | .error e =>
                ([.readT r.path, .parseT r.path, .renderT r.path,
                  .mkdirT (dirOf outputPath)], some (.writeFailed outputPath e))
              | .ok _ =>
                ([.readT r.path, .parseT r.path, .renderT r.path,
                  .mkdirT (dirOf outputPath), .writeT outputPath rendered], none)

/-- `processTemplates` (part_001 lines 114–159): run the walk callback on
every store entry in order, stopping at the first entry that returns an
error (as `fs.WalkDir` does for a non-nil callback result). -/
def processTemplates (env : GenEnv) (data : TemplateData) (projectDir : List Char) :
    List Resource → List Event × Option GenError
  | [] => ([], none)
  | r :: rest =>
    let step := processResource env data projectDir r
    match step.2 with
    | some e => (step.1, some e)
    | none =>
      let further := processTemplates env data projectDir rest
      (step.1 ++ further.1, further.2)

/-- `PostProcess` (part_001 lines 194–246): run the six external commands
in order.  `go mod init`, `go mod tidy` and `go fmt` are fatal — their
failure stops the pipeline and returns a wrapped error; `sqlc generate`,
`goimports` and `go build` are best-effort — their failure only records a
warning.  Returns the commands attempted, the steps warned about, and the
error, if any. -/
def postProcess (exec : Step → Option GoError) :
    List Step × List Step × Option PostError :=
  match exec .modInit with
  | some e => ([.modInit], [], some (.modInitFailed e))
  | none =>
    let sqlcWarn : List Step :=
      match exec .sqlcGenerate with | some _ => [.sqlcGenerate] | none => []
    match exec .modTidy with
    | some e => ([.modInit, .sqlcGenerate, .modTidy], sqlcWarn, some (.modTidyFailed e))
    | none =>
      match exec .goFmt with
      | some e =>
        ([.modInit, .sqlcGenerate, .modTidy, .goFmt], sqlcWarn, some (.goFmtFailed e))
      | none =>
        let importsWarn : List Step :=
          match exec .goimports with | some _ => [.goimports] | none => []
        let buildWarn : List Step :=
          match exec .goBuild with | some _ => [.goBuild] | none => []
        ([.modInit, .sqlcGenerate, .modTidy, .goFmt, .goimports, .goBuild],
         sqlcWarn ++ importsWarn ++ buildWarn, none)

/-- The outcome of one `Generate` call: the template events performed, the
post-processing commands attempted, the best-effort steps warned about, and
the returned error, if any. -/
structure RunResult where
  events : List Event
  executed : List Step
  warnings : List Step
  err : Option GenerateError
deriving DecidableEq

/-- `Generate` (part_001 lines 70–111): build the `TemplateData`, create
the project directory `<outputDir>/<AppName>`, process every template, then
run post-processing.  A template error is returned unchanged; a
post-processing error is wrapped. -/
def Generate (env : GenEnv) (outputDir : List Char) (config : ProjectConfig) :
    RunResult :=
  let data := templateData config
  let projectDir := joinPath outputDir config.AppName
  match env.mkdirAll projectDir with
  | .error e => ⟨[], [], [], some (.projectDirFailed e)⟩
  | .ok _ =>
    let tmpl := processTemplates env data projectDir env.store
    match tmpl.2 with
    | some e => ⟨tmpl.1, [], [], some (.templateError e)⟩
    | none =>
      let post := postProcess env.exec
      ⟨tmpl.1, post.1, post.2.1, post.2.2.map .postProcessFailed⟩

end Generator

/-- The output-file paths recorded in an event list. -/
def writesOf (evs : List Event) : List (List Char) :=
  evs.filterMap (fun ev => match ev with | .writeT p _ => some p | _ => none)

theorem containsSeq_nil (s : List Char) : containsSeq s [] = true := by
  cases s <;> simp [containsSeq, List.isPrefixOf]

theorem replaceAllCore_noop (old new : List Char) :
    ∀ fuel s, containsSeq s old = false → replaceAllCore old new fuel s = s := by
  intro fuel
  induction fuel with
  | zero => intro s _; cases s <;> rfl
  | succ fuel ih =>
    intro s h
    cases s with
    | nil => rfl
    | cons c rest =>
      simp only [containsSeq, Bool.or_eq_false_iff] at h
      obtain ⟨h1, h2⟩ := h
      simp only [replaceAllCore, h1, if_false, Bool.false_eq_true]
      rw [ih rest h2]

theorem replaceAll_noop {s old : List Char} (new : List Char)
    (h : containsSeq s old = false) : replaceAll s old new = s := by
  have hne : old.isEmpty = false := by
    cases old with
    | nil => rw [containsSeq_nil] at h; exact absurd h (by simp)
    | cons _ _ => rfl
  simp only [replaceAll, hne, Bool.false_eq_true, if_false]
  exact replaceAllCore_noop old new s.length s h

theorem featuresContains_iff (fs : List (List Char)) (x : List Char) :
    featuresContains fs x = true ↔ x ∈ fs := by
  induction fs with
  | nil => simp [featuresContains]
  | cons f fs ih =>
    by_cases hf : f = x
    · subst hf; simp [featuresContains]
    · simp [featuresContains, hf, ih, List.mem_cons]
      intro h
      exact absurd h.symm hf

/-- Configuration whose domain word has an irregular English plural. -/
def personConfig : ProjectConfig :=
  { AppName := "app".toList
    ModuleName := "example.com/app".toList
    Domain := "person".toList
    Description := []
    Author := []
    Features := [] }

/-- C1 counterexample: the `TemplateData` built by the current `Generate`
derives `DomainPlural` from the `inflection` library, whose irregular-word
dictionary maps the domain `person` to `people`, while the heuristic
`Pluralize` yields `persons` — so the heuristic is not the function that
produces `DomainPlural`. -/
theorem c1_counterexample :
    (Generator.templateData personConfig).DomainPlural = "people".toList
    ∧ pluralize personConfig.Domain = "persons".toList
    ∧ (Generator.templateData personConfig).DomainPlural
        ≠ pluralize personConfig.Domain := by decide

/-- C1 (amended): `Pluralize` applies the stated English heuristic — a
trailing `y` becomes `ies`; otherwise a trailing `s`, `sh` or `ch` gets
`es` appended; otherwise `s` is appended — with the four documented values,
and it produces the `DomainPlural` field of the `TemplateData` built by the
older revision's `Generate`; the current `Generate` instead derives
`DomainPlural` from the `inflection` library's dictionary-backed
pluralizer. -/
theorem c1_pluralize_heuristic :
    (∀ w : List Char, w.getLast? = some 'y' →
        pluralize w = w.dropLast ++ "ies".toList)
    ∧ (∀ w : List Char, hasSuf w "y".toList = false →
        (hasSuf w "s".toList || hasSuf w "sh".toList || hasSuf w "ch".toList) = true →
        pluralize w = w ++ "es".toList)
    ∧ (∀ w : List Char, hasSuf w "y".toList = false →
        (hasSuf w "s".toList || hasSuf w "sh".toList || hasSuf w "ch".toList) = false →
        pluralize w = w ++ "s".toList)
    ∧ pluralize "category".toList = "categories".toList
    ∧ pluralize "bus".toList = "buses".toList
    ∧ pluralize "order".toList = "orders".toList
    ∧ pluralize "".toList = "s".toList
    ∧ (∀ config : ProjectConfig,
        (Generator0.templateData config).DomainPlural = pluralize config.Domain)
    ∧ (∀ config : ProjectConfig,
        (Generator.templateData config).DomainPlural = inflectionPlural config.Domain) := by
  refine ⟨fun w h => ?_, fun w h1 h2 => ?_, fun w h1 h2 => ?_,
    by decide, by decide, by decide, by decide, fun config => rfl, fun config => rfl⟩
  · induction w using List.reverseRecOn with
    | nil => simp at h
    | append_singleton l a _ =>
      rw [List.getLast?_concat] at h
      have ha : a = 'y' := by injection h
      subst ha
      have hsuf : List.isSuffixOf "y".toList (l ++ ['y']) = true := by
        rw [List.isSuffixOf_iff_suffix]
        exact List.suffix_append l ['y']
      simp only [pluralize, hasSuf, trimSuf, hsuf, if_true, List.dropLast_concat]
      have hlen : (l ++ ['y']).length - "y".toList.length = l.length := by simp
      rw [hlen, List.take_left]
  · simp only [pluralize]
    rw [h1, h2]
    simp
  · simp only [pluralize]
    rw [h1, h2]
    simp

/-- C1 witness: the heuristic cases of `c1_pluralize_heuristic`
instantiated at the documented example words. -/
theorem c1_pluralize_heuristic_witness :
    pluralize "category".toList = "category".toList.dropLast ++ "ies".toList
    ∧ pluralize "bus".toList = "bus".toList ++ "es".toList
    ∧ pluralize "order".toList = "order".toList ++ "s".toList :=
  ⟨c1_pluralize_heuristic.1 _ (by decide),
   c1_pluralize_heuristic.2.1 _ (by decide) (by decide),
   c1_pluralize_heuristic.2.2.1 _ (by decide) (by decide)⟩

/-- C3: `titleCase` upper-cases only the first character and lower-cases
the remainder, returns the empty string unchanged, maps `product` and
`PRODUCT` to `Product`, and is the function producing the `DomainTitle`
field of the `TemplateData` built by the current `Generate`. -/
theorem c3_titleCase :
    (∀ s : List Char, titleCase s = goToUpper (s.take 1) ++ goToLower (s.drop 1))
    ∧ titleCase "product".toList = "Product".toList
    ∧ titleCase "PRODUCT".toList = "Product".toList
    ∧ titleCase "".toList = "".toList
    ∧ (∀ config : ProjectConfig,
        (Generator.templateData config).DomainTitle = titleCase config.Domain) := by
  refine ⟨fun s => ?_, by decide, by decide, by decide, fun config => rfl⟩
  cases s <;> simp [titleCase, goToUpper, goToLower]

/-- The virtual path of the spec's path-resolution example. -/
def c2Path : List Char :=
  "templates/\x7b\x7b.AppName\x7d\x7d/\x7b\x7b.Domain\x7d\x7d.go.tmpl".toList

/-- C2: `getOutputPath` strips the `templates/` prefix, then strips a
trailing `.tmpl` when present, then substitutes the four placeholder
tokens as literal substrings (app name, verbatim domain, lowercased
domain, pluralized domain) — in that order — and on the spec's example
(the app-name and domain tokens under AppName `shop`, Domain `order`) it
yields `shop/order.go`. -/
theorem c2_path_resolution :
    (∀ (p : List Char) (d : Generator.TemplateData),
        Generator.getOutputPath p d = substTokens d (stripTmplExt (stripRoot p)))
    ∧ Generator.getOutputPath c2Path (Generator.templateData shopOrderConfig)
        = "shop/order.go".toList :=
  ⟨fun p d => rfl, by decide⟩

/-- A virtual path containing a token the resolver does not know. -/
def c9Path : List Char := "templates/\x7b\x7b.Unknown\x7d\x7d/x.go.tmpl".toList

/-- C9: path resolution is total — it is a function returning a concrete
path for every input — and any path whose stripped form contains none of
the four placeholder tokens (in particular one containing an unknown
`{{.Unknown}}` token) passes through substitution verbatim, with no
error. -/
theorem c9_unknown_tokens :
    (∀ (p : List Char) (d : Generator.TemplateData),
        containsSeq (stripTmplExt (stripRoot p)) Generator.tokAppName = false →
        containsSeq (stripTmplExt (stripRoot p)) Generator.tokDomain = false →
        containsSeq (stripTmplExt (stripRoot p)) Generator.tokDomainLower = false →
        containsSeq (stripTmplExt (stripRoot p)) Generator.tokDomainPlural = false →
        Generator.getOutputPath p d = stripTmplExt (stripRoot p))
    ∧ Generator.getOutputPath c9Path (Generator.templateData shopOrderConfig)
        = "\x7b\x7b.Unknown\x7d\x7d/x.go".toList := by
  refine ⟨fun p d h1 h2 h3 h4 => ?_, by decide⟩
  show substTokens d (stripTmplExt (stripRoot p)) = stripTmplExt (stripRoot p)
  unfold substTokens
  rw [replaceAll_noop _ h1, replaceAll_noop _ h2, replaceAll_noop _ h3,
    replaceAll_noop _ h4]

/-- C9 witness: `c9_unknown_tokens` applied to a token-free template
path. -/
theorem c9_unknown_tokens_witness :
    Generator.getOutputPath "templates/plain/main.go.tmpl".toList
      (Generator.templateData shopOrderConfig) = "plain/main.go".toList :=
  c9_unknown_tokens.1 _ _ (by decide) (by decide) (by decide) (by decide)

/-- C7: the `HasFeature` closure of the `TemplateData` built by `Generate`
answers `true` exactly for members of the configuration's `Features` list
(case-sensitively: `Auth` does not match `auth`), its answers are unchanged
under reordering or duplication of the list, and an empty `Features` list
makes it answer `false` everywhere. -/
theorem c7_hasFeature :
    (∀ (config : ProjectConfig) (x : List Char),
        ((Generator.templateData config).HasFeature x = true ↔ x ∈ config.Features))
    ∧ (∀ (fs fs2 : List (List Char)) (x : List Char),
        (∀ y, y ∈ fs ↔ y ∈ fs2) →
        featuresContains fs x = featuresContains fs2 x)
    ∧ (∀ (config : ProjectConfig) (x : List Char),
        config.Features = [] → (Generator.templateData config).HasFeature x = false)
    ∧ featuresContains ["Auth".toList] "auth".toList = false := by
  refine ⟨fun config x => featuresContains_iff _ _, fun fs fs2 x h => ?_,
    fun config x h => ?_, by decide⟩
  · rw [Bool.eq_iff_iff, featuresContains_iff, featuresContains_iff]
    exact h x
  · show featuresContains config.Features x = false
    rw [h]
    rfl

/-- C7 witness: `c7_hasFeature` instantiated at a duplicated feature list
and at the empty-features sample configuration. -/
theorem c7_hasFeature_witness :
    featuresContains ["a".toList] "z".toList
        = featuresContains ["a".toList, "a".toList] "z".toList
    ∧ (Generator.templateData shopOrderConfig).HasFeature "auth".toList = false :=
  ⟨c7_hasFeature.2.1 _ _ _ (fun y => by simp),
   c7_hasFeature.2.2.1 shopOrderConfig _ rfl⟩

/-- Configuration whose app name contains the literal text of the domain
token. -/
def c10Config : ProjectConfig :=
  { AppName := "x\x7b\x7b.Domain\x7d\x7dy".toList
    ModuleName := "m".toList
    Domain := "order".toList
    Description := []
    Author := []
    Features := [] }

/-- A virtual path mentioning only the app-name token. -/
def c10Path : List Char := "templates/\x7b\x7b.AppName\x7d\x7d.go.tmpl".toList

/-- C10: the path substitutions run sequentially over the whole string in
the order app name, verbatim domain, lowercased domain, pluralized domain,
so an app-name value containing the literal domain token is itself
rewritten by the later domain substitution: the resolved path carries the
`Domain` value in that position, not the `AppName` value verbatim. -/
theorem c10_sequential_substitution :
    Generator.getOutputPath c10Path (Generator.templateData c10Config)
        = "xordery.go".toList
    ∧ containsSeq (Generator.templateData c10Config).AppName Generator.tokDomain = true
    ∧ containsSeq (Generator.getOutputPath c10Path (Generator.templateData c10Config))
        (Generator.templateData c10Config).AppName = false
    ∧ containsSeq (Generator.getOutputPath c10Path (Generator.templateData c10Config))
        (Generator.templateData c10Config).Domain = true := by decide

/-- The template or output path a wrapped `processTemplates` error names
(the `%s` of the corresponding `fmt.Errorf` call). -/
def errPathOf : GenError → Option (List Char)
  | .walk _ => none
  | .readFailed p _ => some p
  | .parseFailed p _ => some p
  | .execFailed p _ => some p
  | .mkdirFailed p _ => some p
  | .writeFailed p _ => some p

theorem processResource_dir (env : GenEnv) (data : Generator.TemplateData)
    (pd : List Char) (r : Resource) (hw : r.walkErr = none) (hd : r.isDir = true) :
    Generator.processResource env data pd r = ([], none) := by
  simp [Generator.processResource, hw, hd]

theorem processResource_ok_events (env : GenEnv) (data : Generator.TemplateData)
    (pd : List Char) (r : Resource) (hw : r.walkErr = none) (hd : r.isDir = false)
    (h : (Generator.processResource env data pd r).2 = none) :
    ∃ rendered,
      (Generator.processResource env data pd r).1 =
        [Event.readT r.path, Event.parseT r.path, Event.renderT r.path,
         Event.mkdirT (dirOf (joinPath pd (Generator.getOutputPath r.path data))),
         Event.writeT (joinPath pd (Generator.getOutputPath r.path data)) rendered] := by
  simp only [Generator.processResource, hw, hd, Bool.false_eq_true, if_false] at h ⊢
  repeat' split at h
  all_goals simp_all

theorem processResource_err_path (env : GenEnv) (data : Generator.TemplateData)
    (pd : List Char) (r : Resource) (e : GenError) (hw : r.walkErr = none)
    (h : (Generator.processResource env data pd r).2 = some e) :
    errPathOf e = some r.path
    ∨ errPathOf e = some (joinPath pd (Generator.getOutputPath r.path data)) := by
  by_cases hd : r.isDir = true
  · rw [processResource_dir env data pd r hw hd] at h
    simp at h
  · have hd2 : r.isDir = false := by simpa using hd
    simp only [Generator.processResource, hw, hd2, Bool.false_eq_true, if_false] at h
    repeat' split at h
    all_goals simp only [Option.some.injEq] at h
    all_goals first
      | (exact absurd h (by simp))
      | (subst h; simp [errPathOf])

theorem processTemplates_append_ok (env : GenEnv) (data : Generator.TemplateData)
    (pd : List Char) :
    ∀ (pre rest : List Resource),
      (∀ x ∈ pre, (Generator.processResource env data pd x).2 = none) →
      Generator.processTemplates env data pd (pre ++ rest)
        = ((pre.map fun x => (Generator.processResource env data pd x).1).flatten
             ++ (Generator.processTemplates env data pd rest).1,
           (Generator.processTemplates env data pd rest).2) := by
  intro pre
  induction pre with
  | nil => intro rest h; simp
  | cons r pre ih =>
    intro rest h
    have hr : (Generator.processResource env data pd r).2 = none := h r (by simp)
    have hrest : ∀ x ∈ pre, (Generator.processResource env data pd x).2 = none :=
      fun x hx => h x (by simp [hx])
    simp only [List.cons_append, Generator.processTemplates, hr, List.append_eq]
    rw [ih rest hrest]
    simp [List.append_assoc]

theorem writesOf_append (a b : List Event) :
    writesOf (a ++ b) = writesOf a ++ writesOf b :=
  List.filterMap_append a b _

theorem processTemplates_all_ok (env : GenEnv) (data : Generator.TemplateData)
    (pd : List Char) :
    ∀ store : List Resource,
      (∀ r ∈ store, r.walkErr = none ∧
        (r.isDir = false → (Generator.processResource env data pd r).2 = none)) →
      (Generator.processTemplates env data pd store).2 = none
      ∧ writesOf (Generator.processTemplates env data pd store).1
          = (store.filter fun r => !r.isDir).map
              (fun r => joinPath pd (Generator.getOutputPath r.path data)) := by
  intro store
  induction store with
  | nil => intro _; exact ⟨rfl, rfl⟩
  | cons r rest ih =>
    intro h
    obtain ⟨hw, hstep⟩ := h r (by simp)
    have hrest := ih (fun x hx => h x (by simp [hx]))
    by_cases hd : r.isDir = true
    · have hres := processResource_dir env data pd r hw hd
      simp only [Generator.processTemplates, hres]
      refine ⟨hrest.1, ?_⟩
      simp only [List.nil_append]
      rw [hrest.2]
      simp [List.filter_cons, hd]
    · have hd2 : r.isDir = false := by simpa using hd
      have h2 := hstep hd2
      obtain ⟨rendered, hevs⟩ := processResource_ok_events env data pd r hw hd2 h2
      simp only [Generator.processTemplates, h2]
      refine ⟨hrest.1, ?_⟩
      rw [writesOf_append, hevs, hrest.2]
      simp [writesOf, List.filter_cons, hd2]

/-- C4: when the module-initialization command fails, `Generate` (having
created the project directory and processed all templates successfully)
returns the error wrapped as a post-processing failure naming the
module-initialization step, and the pipeline stops before the
dependency-tidy command — the only command attempted is module
initialization. -/
theorem c4_fatal_step_aborts :
    ∀ (env : GenEnv) (outputDir : List Char) (config : ProjectConfig) (e : GoError),
      env.mkdirAll (joinPath outputDir config.AppName) = .ok () →
      (Generator.processTemplates env (Generator.templateData config)
          (joinPath outputDir config.AppName) env.store).2 = none →
      env.exec .modInit = some e →
      (Generator.Generate env outputDir config).err
          = some (.postProcessFailed (.modInitFailed e))
      ∧ (Generator.Generate env outputDir config).executed = [Step.modInit]
      ∧ Step.modTidy ∉ (Generator.Generate env outputDir config).executed := by
  intro env od config e h1 h2 h3
  simp only [Generator.Generate, Generator.postProcess, h1, h2, h3]
  refine ⟨?_, ?_, ?_⟩ <;> simp

/-- Environment for the C4 witness: every command and filesystem primitive
succeeds except module initialization. -/
def envC4 : GenEnv :=
  { store := []
    read := fun _ => .ok []
    parseErr := fun _ _ => none
    render := fun _ _ _ => .ok []
    mkdirAll := fun _ => .ok ()
    write := fun _ _ => .ok ()
    exec := fun s => match s with
      | .modInit => some (.msg "exit status 1".toList)
      | _ => none }

/-- C4 witness: `c4_fatal_step_aborts` at a concrete environment whose
module-initialization command fails. -/
theorem c4_fatal_step_aborts_witness :
    (Generator.Generate envC4 "out".toList shopOrderConfig).err
        = some (.postProcessFailed (.modInitFailed (.msg "exit status 1".toList)))
    ∧ Step.modTidy ∉ (Generator.Generate envC4 "out".toList shopOrderConfig).executed := by
  have h := c4_fatal_step_aborts envC4 "out".toList shopOrderConfig
    (.msg "exit status 1".toList) rfl rfl rfl
  exact ⟨h.1, h.2.2⟩

/-- C5: when the three fatal commands (module init, dependency tidy,
formatting) succeed, `Generate` — having written all templates — returns
success regardless of best-effort failures: every failing step is recorded
as a warning, and every later step is still attempted (in particular the
build-verification step runs even when the import fixer failed). -/
theorem c5_best_effort_tolerated :
    ∀ (env : GenEnv) (outputDir : List Char) (config : ProjectConfig),
      env.mkdirAll (joinPath outputDir config.AppName) = .ok () →
      (Generator.processTemplates env (Generator.templateData config)
          (joinPath outputDir config.AppName) env.store).2 = none →
      env.exec .modInit = none →
      env.exec .modTidy = none →
      env.exec .goFmt = none →
      (Generator.Generate env outputDir config).err = none
      ∧ (∀ (s : Step) (e : GoError),
          env.exec s = some e → s ∈ (Generator.Generate env outputDir config).warnings)
      ∧ Step.goBuild ∈ (Generator.Generate env outputDir config).executed
      ∧ Step.goimports ∈ (Generator.Generate env outputDir config).executed := by
  intro env od config h1 h2 hmi hmt hfmt
  simp only [Generator.Generate, Generator.postProcess, h1, h2, hmi, hmt, hfmt]
  refine ⟨rfl, ?_, by simp, by simp⟩
  intro s e hs
  cases s <;> simp_all

/-- Environment for the C5 witness: the fatal commands succeed while every
best-effort command (schema generation, import fixing, build verification)
fails. -/
def envC5 : GenEnv :=
  { store := []
    read := fun _ => .ok []
    parseErr := fun _ _ => none
    render := fun _ _ _ => .ok []
    mkdirAll := fun _ => .ok ()
    write := fun _ _ => .ok ()
    exec := fun s => match s with
      | .sqlcGenerate => some (.msg "sqlc not installed".toList)
      | .goimports => some (.msg "goimports not installed".toList)
      | .goBuild => some (.msg "build needs database".toList)
      | _ => none }

/-- C5 witness: `c5_best_effort_tolerated` at a concrete environment in
which all three best-effort commands fail: the run still succeeds, the
import-fixer failure is warned about, and build verification still ran. -/
theorem c5_best_effort_tolerated_witness :
    (Generator.Generate envC5 "out".toList shopOrderConfig).err = none
    ∧ Step.goimports ∈ (Generator.Generate envC5 "out".toList shopOrderConfig).warnings
    ∧ Step.goBuild ∈ (Generator.Generate envC5 "out".toList shopOrderConfig).warnings
    ∧ Step.goBuild ∈ (Generator.Generate envC5 "out".toList shopOrderConfig).executed := by
  have h := c5_best_effort_tolerated envC5 "out".toList shopOrderConfig rfl rfl rfl rfl rfl
  exact ⟨h.1, h.2.1 .goimports (.msg "goimports not installed".toList) rfl,
    h.2.1 .goBuild (.msg "build needs database".toList) rfl, h.2.2.1⟩

/-- C6: the project writer handles templates in store order and aborts on
the first failing one: `Generate` returns that step's wrapped error
unchanged, the recorded events are exactly those of the successfully
processed earlier templates plus the failing one (so no later template is
read, rendered or written, and the files written before the failure are the
earlier templates' — they are not rolled back), and the error names the
failing template's path or its resolved output path. -/
theorem c6_fail_fast :
    ∀ (env : GenEnv) (outputDir : List Char) (config : ProjectConfig)
      (pre : List Resource) (r : Resource) (post : List Resource) (e : GenError),
      env.store = pre ++ r :: post →
      env.mkdirAll (joinPath outputDir config.AppName) = .ok () →
      (∀ x ∈ pre,
        (Generator.processResource env (Generator.templateData config)
            (joinPath outputDir config.AppName) x).2 = none) →
      (Generator.processResource env (Generator.templateData config)
          (joinPath outputDir config.AppName) r).2 = some e →
      (Generator.Generate env outputDir config).err = some (.templateError e)
      ∧ (Generator.Generate env outputDir config).events
          = (pre.map fun x => (Generator.processResource env (Generator.templateData config)
                (joinPath outputDir config.AppName) x).1).flatten
            ++ (Generator.processResource env (Generator.templateData config)
                (joinPath outputDir config.AppName) r).1
      ∧ (r.walkErr = none →
          errPathOf e = some r.path
          ∨ errPathOf e = some (joinPath (joinPath outputDir config.AppName)
              (Generator.getOutputPath r.path (Generator.templateData config)))) := by
  intro env od config pre r post e hstore h1 hpre hr
  have hhead : Generator.processTemplates env (Generator.templateData config)
      (joinPath od config.AppName) (r :: post)
      = ((Generator.processResource env (Generator.templateData config)
            (joinPath od config.AppName) r).1, some e) := by
    simp only [Generator.processTemplates, hr]
  have hpt := processTemplates_append_ok env (Generator.templateData config)
      (joinPath od config.AppName) pre (r :: post) hpre
  rw [hhead] at hpt
  refine ⟨?_, ?_, fun hw => processResource_err_path env (Generator.templateData config)
    (joinPath od config.AppName) r e hw hr⟩
  · simp only [Generator.Generate, h1, hstore, hpt]
  · simp only [Generator.Generate, h1, hstore, hpt]

/-- Environment for the C6 witness: three file resources, of which the
second fails to read. -/
def envC6 : GenEnv :=
  { store := [⟨"templates/a.txt.tmpl".toList, false, none⟩,
              ⟨"templates/bad.txt.tmpl".toList, false, none⟩,
              ⟨"templates/c.txt.tmpl".toList, false, none⟩]
    read := fun p =>
      if p = "templates/bad.txt.tmpl".toList then .error (.msg "io".toList)
      else .ok "hello".toList
    parseErr := fun _ _ => none
    render := fun _ _ _ => .ok "hello".toList
    mkdirAll := fun _ => .ok ()
    write := fun _ _ => .ok ()
    exec := fun _ => none }

/-- C6 witness: `c6_fail_fast` at a concrete store whose second template
fails to read — the read error, wrapped with that template's path, is
returned from `Generate`. -/
theorem c6_fail_fast_witness :
    (Generator.Generate envC6 "out".toList shopOrderConfig).err
        = some (.templateError (.readFailed "templates/bad.txt.tmpl".toList
            (.msg "io".toList))) :=
  (c6_fail_fast envC6 "out".toList shopOrderConfig
    [⟨"templates/a.txt.tmpl".toList, false, none⟩]
    ⟨"templates/bad.txt.tmpl".toList, false, none⟩
    [⟨"templates/c.txt.tmpl".toList, false, none⟩]
    (.readFailed "templates/bad.txt.tmpl".toList (.msg "io".toList))
    rfl rfl (by intro x hx; simp at hx; subst hx; rfl) rfl).1

/-- C8: when every read, parse, render, directory-create and write
succeeds, `Generate` performs exactly one write per non-directory resource
of the store — N writes for N file resources — and each one goes to the
project root joined with the resource's resolved path (`getOutputPath`),
preserving the store's directory structure. -/
theorem c8_writes_every_resource :
    ∀ (env : GenEnv) (outputDir : List Char) (config : ProjectConfig),
      env.mkdirAll (joinPath outputDir config.AppName) = .ok () →
      (∀ r ∈ env.store, r.walkErr = none ∧
        (r.isDir = false →
          (Generator.processResource env (Generator.templateData config)
              (joinPath outputDir config.AppName) r).2 = none)) →
      writesOf (Generator.Generate env outputDir config).events
          = (env.store.filter fun r => !r.isDir).map
              (fun r => joinPath (joinPath outputDir config.AppName)
                (Generator.getOutputPath r.path (Generator.templateData config)))
      ∧ (writesOf (Generator.Generate env outputDir config).events).length
          = (env.store.filter fun r => !r.isDir).length := by
  intro env od config h1 hall
  have h := processTemplates_all_ok env (Generator.templateData config)
    (joinPath od config.AppName) env.store hall
  have hev : (Generator.Generate env od config).events
      = (Generator.processTemplates env (Generator.templateData config)
          (joinPath od config.AppName) env.store).1 := by
    simp only [Generator.Generate, h1, h.1]
  rw [hev, h.2]
  exact ⟨rfl, by simp⟩

/-- Environment for the C8 witness: one directory and two file resources,
with all primitives succeeding. -/
def envC8 : GenEnv :=
  { store := [⟨"templates".toList, true, none⟩,
              ⟨"templates/main.go.tmpl".toList, false, none⟩,
              ⟨"templates/internal/\x7b\x7b.domain\x7d\x7d.go.tmpl".toList, false, none⟩]
    read := fun _ => .ok "package main".toList
    parseErr := fun _ _ => none
    render := fun _ _ _ => .ok "package main".toList
    mkdirAll := fun _ => .ok ()
    write := fun _ _ => .ok ()
    exec := fun _ => none }

/-- C8 witness: `c8_writes_every_resource` at a concrete three-entry store
(one directory, two files): exactly the two files are written, at their
resolved paths under the project root. -/
theorem c8_writes_every_resource_witness :
    writesOf (Generator.Generate envC8 "out".toList shopOrderConfig).events
        = ["out/shop/main.go".toList, "out/shop/internal/order.go".toList]
    ∧ (writesOf (Generator.Generate envC8 "out".toList shopOrderConfig).events).length
        = 2 := by
  have h := c8_writes_every_resource envC8 "out".toList shopOrderConfig rfl
    (by intro r hr; simp [envC8] at hr
        rcases hr with rfl | rfl | rfl
        · exact ⟨rfl, fun hh => absurd hh (by decide)⟩
        · exact ⟨rfl, fun _ => rfl⟩
        · exact ⟨rfl, fun _ => rfl⟩)
  refine ⟨?_, ?_⟩
  · rw [h.1]; decide
  · rw [h.2]; decide
